import Mathlib

/-!
Verification development for the voice-assistant session engine of this
repository (`src/components/VoiceAssistant.tsx` and the unnamed draft
revisions of the same component).

Embedding conventions:
- audio samples and times are rationals;
- a JavaScript write into an `Int16Array` is modelled explicitly as
  truncation toward zero followed by 16-bit wrapping (`ToInt16`);
- a base64 payload is identified with the byte sequence it encodes
  (`btoa` and `atob` are mutually inverse on binary strings, and
  `encodeBase64`/`decodeBase64` in the source are exactly that pair
  composed with byte/char conversion);
- a computation that throws in JavaScript returns `none` here;
- host callbacks (`onCommand`, `onCompositeUpdate`, ...) are external:
  whether the callback for a given tool call throws is an input flag of
  the model, and the invocations performed are part of the model output.
-/

namespace VoiceEngine

/-- `Math.max(-1, Math.min(1, v))`: the clamp applied by both encoders
before scaling. -/
def clampSample (v : ℚ) : ℚ := max (-1) (min 1 v)

/-- JavaScript number-to-integer conversion: truncation toward zero. -/
def truncQ (q : ℚ) : ℤ := if 0 ≤ q then ⌊q⌋ else -⌊-q⌋

/-- JavaScript `ToInt16`: wrap an integer into the signed 16-bit range, as
storing into an `Int16Array` element does. -/
def toInt16 (n : ℤ) : ℤ :=
  if n % 65536 < 32768 then n % 65536 else n % 65536 - 65536

/-- Per-sample encoder of `createPcmBlob` (first revision):
`int16[i] = Math.max(-1, Math.min(1, data[i])) * 32767`. -/
def pcmSample (v : ℚ) : ℤ := toInt16 (truncQ (clampSample v * 32767))

/-- Per-sample encoder of `encodePcmAudio` (second revision): a negative
clamped sample scales by `0x8000`, a nonnegative one by `0x7FFF`. -/
def pcmSample2 (v : ℚ) : ℤ :=
  let c := clampSample v
  if c < 0 then toInt16 (truncQ (c * 32768)) else toInt16 (truncQ (c * 32767))

/-- The two little-endian bytes of the 16-bit storage cell holding `n`,
as `new Uint8Array(int16.buffer)` exposes them. -/
def int16Bytes (n : ℤ) : List ℕ :=
  [(n % 65536).toNat % 256, (n % 65536).toNat / 256]

/-- The byte payload produced by `createPcmBlob` (first revision); the
accompanying mime type is `audio/pcm;rate=<sampleRate>` and plays no role
in the codec claims. -/
def createPcmBlob (data : List ℚ) : List ℕ :=
  (data.map (fun v => int16Bytes (pcmSample v))).flatten

/-- The byte payload produced by `encodePcmAudio` (second revision). -/
def encodePcmAudio (data : List ℚ) : List ℕ :=
  (data.map (fun v => int16Bytes (pcmSample2 v))).flatten

/-- Signed 16-bit value of a little-endian byte pair, as an `Int16Array`
element reads it (bytes come from a `Uint8Array` and are below 256). -/
def bytePairVal (b0 b1 : ℕ) : ℤ :=
  if b0 + 256 * b1 < 32768 then ((b0 + 256 * b1 : ℕ) : ℤ)
  else ((b0 + 256 * b1 : ℕ) : ℤ) - 65536

/-- `new Int16Array(bytes.buffer)`: JavaScript throws a `RangeError` when
the byte length is not a multiple of 2, modelled as `none`. -/
def int16OfBytes : List ℕ → Option (List ℤ)
  | [] => some []
  | [_] => none
  | b0 :: b1 :: rest => (int16OfBytes rest).map (fun ns => bytePairVal b0 b1 :: ns)

/-- `decodeAudioData` (first revision): interpret the bytes as
little-endian int16 samples (`RangeError` on an odd byte length,
modelled by `none` from `int16OfBytes`), compute
`frameCount = Math.floor(samples / numChannels)`, then
`ctx.createBuffer(numChannels, frameCount, sampleRate)` — which throws
`NotSupportedError` when the channel count or the frame count is zero,
also modelled as `none`; channel `c` frame `i` reads
`dataInt16[i * numChannels + c] ?? 0` and normalises by 32768. -/
def decodeAudioData (bytes : List ℕ) (numChannels : ℕ) : Option (List (List ℚ)) :=
  (int16OfBytes bytes).bind (fun ints =>
    if numChannels = 0 ∨ ints.length / numChannels = 0 then none
    else some ((List.range numChannels).map (fun c =>
      (List.range (ints.length / numChannels)).map (fun i =>
        (((ints.get? (i * numChannels + c)).getD 0 : ℤ) : ℚ) / 32768))))

/-- `decodePcmAudio` (second revision): mono decode of the byte payload,
each int16 sample divided by 32768. `none` models both the odd-length
`RangeError` of `new Int16Array(bytes.buffer)` and the
`NotSupportedError` of `audioContext.createBuffer(1, length, rate)` on a
zero-length (empty) payload. -/
def decodePcmAudio (bytes : List ℕ) : Option (List ℚ) :=
  (int16OfBytes bytes).bind (fun ints =>
    if ints.length = 0 then none
    else some (ints.map (fun n => ((n : ℤ) : ℚ) / 32768)))

/-! ### Codec lemmas -/

theorem clampSample_mem (v : ℚ) : -1 ≤ clampSample v ∧ clampSample v ≤ 1 := by
  unfold clampSample
  exact ⟨le_max_left _ _, max_le (by norm_num) (min_le_left _ _)⟩

theorem clampSample_eq_self (v : ℚ) (h1 : -1 ≤ v) (h2 : v ≤ 1) : clampSample v = v := by
  unfold clampSample
  rw [min_eq_right h2, max_eq_right h1]

theorem truncQ_sub_lt_one (q : ℚ) : |(truncQ q : ℚ) - q| < 1 := by
  unfold truncQ
  split
  · have hf1 : (⌊q⌋ : ℚ) ≤ q := Int.floor_le q
    have hf2 : q < ⌊q⌋ + 1 := Int.lt_floor_add_one q
    rw [abs_lt]
    constructor <;> linarith
  · have hf1 : (⌊-q⌋ : ℚ) ≤ -q := Int.floor_le (-q)
    have hf2 : -q < ⌊-q⌋ + 1 := Int.lt_floor_add_one (-q)
    rw [abs_lt]
    constructor <;> · push_cast; linarith

theorem truncQ_range (q : ℚ) (B : ℤ) (h : |q| ≤ (B : ℚ)) :
    -B ≤ truncQ q ∧ truncQ q ≤ B := by
  rcases abs_le.mp h with ⟨hlo, hhi⟩
  unfold truncQ
  split
  · rename_i hq
    constructor
    · exact Int.le_floor.mpr (by push_cast; linarith)
    · have : (⌊q⌋ : ℚ) ≤ (B : ℚ) := le_trans (Int.floor_le q) hhi
      exact_mod_cast this
  · rename_i hq
    push_neg at hq
    have h1 : ⌊-q⌋ ≤ B := by
      have : (⌊-q⌋ : ℚ) ≤ (B : ℚ) := le_trans (Int.floor_le (-q)) (by linarith)
      exact_mod_cast this
    have h2 : (0 : ℤ) ≤ ⌊-q⌋ := Int.floor_nonneg.mpr (by linarith)
    omega

theorem toInt16_eq_self (n : ℤ) (h1 : -32768 ≤ n) (h2 : n ≤ 32767) : toInt16 n = n := by
  unfold toInt16
  split <;> omega

theorem bytePairVal_int16Bytes (n : ℤ) (h1 : -32768 ≤ n) (h2 : n ≤ 32767) :
    bytePairVal ((n % 65536).toNat % 256) ((n % 65536).toNat / 256) = n := by
  unfold bytePairVal
  split <;> omega

theorem pcmSample_spec (v : ℚ) :
    pcmSample v = truncQ (clampSample v * 32767)
    ∧ -32767 ≤ pcmSample v ∧ pcmSample v ≤ 32767 := by
  have hc := clampSample_mem v
  have habs : |clampSample v * 32767| ≤ ((32767 : ℤ) : ℚ) := by
    have h1 : |clampSample v| ≤ 1 := abs_le.mpr ⟨hc.1, hc.2⟩
    calc |clampSample v * 32767| = |clampSample v| * |(32767 : ℚ)| := abs_mul _ _
      _ ≤ 1 * |(32767 : ℚ)| := by
          have : (0 : ℚ) ≤ |(32767 : ℚ)| := abs_nonneg _
          exact mul_le_mul_of_nonneg_right h1 this
      _ = ((32767 : ℤ) : ℚ) := by norm_num
  have hr := truncQ_range _ 32767 habs
  have heq : pcmSample v = truncQ (clampSample v * 32767) := by
    unfold pcmSample
    exact toInt16_eq_self _ (by omega) hr.2
  exact ⟨heq, by rw [heq]; omega, by rw [heq]; omega⟩

theorem int16OfBytes_encode (ns : List ℤ) (h : ∀ n ∈ ns, -32768 ≤ n ∧ n ≤ 32767) :
    int16OfBytes ((ns.map int16Bytes).flatten) = some ns := by
  induction ns with
  | nil => rfl
  | cons n rest ih =>
    have hn := h n (List.mem_cons_self n rest)
    have hrest : ∀ m ∈ rest, -32768 ≤ m ∧ m ≤ 32767 :=
      fun m hm => h m (List.mem_cons_of_mem n hm)
    simp [int16Bytes, int16OfBytes, ih hrest,
      bytePairVal_int16Bytes n hn.1 hn.2]

theorem range_map_get (l : List ℤ) (f : ℤ → ℚ) :
    (List.range l.length).map (fun i => f ((l.get? i).getD 0)) = l.map f := by
  induction l with
  | nil => rfl
  | cons a t ih =>
    rw [List.length_cons, List.range_succ_eq_map]
    simp only [List.map_cons, List.map_map, Function.comp_def, List.get?_cons_succ,
      List.get?_cons_zero, Option.getD_some]
    rw [ih]

theorem decode_createPcmBlob (x : List ℚ) (hne : x ≠ []) :
    decodeAudioData (createPcmBlob x) 1
      = some [x.map (fun v => ((pcmSample v : ℤ) : ℚ) / 32768)] := by
  unfold decodeAudioData createPcmBlob
  have hcomp : x.map (fun v => int16Bytes (pcmSample v)) = (x.map pcmSample).map int16Bytes := by
    rw [List.map_map]; rfl
  rw [hcomp, int16OfBytes_encode (x.map pcmSample)
      (by
        intro n hn
        rcases List.mem_map.mp hn with ⟨v, _, rfl⟩
        have := (pcmSample_spec v).2
        exact ⟨by omega, this.2⟩)]
  rw [Option.some_bind]
  rw [if_neg (by
    push_neg
    refine ⟨one_ne_zero, ?_⟩
    rw [Nat.div_one, List.length_map]
    intro h
    exact hne (List.length_eq_zero.mp h))]
  simp only [List.length_map, Nat.div_one, mul_one, add_zero]
  rw [show List.range 1 = [0] from rfl]
  simp only [List.map_cons, List.map_nil, add_zero]
  rw [show x.length = (x.map pcmSample).length from (List.length_map _ _).symm,
    range_map_get (x.map pcmSample) (fun n => ((n : ℤ) : ℚ) / 32768),
    List.map_map]
  rfl

theorem pcm_error_bound (v : ℚ) (h1 : -1 ≤ v) (h2 : v ≤ 1) :
    |((pcmSample v : ℤ) : ℚ) / 32768 - v| < 1 / 16384 := by
  have hcl : clampSample v = v := clampSample_eq_self v h1 h2
  have heq : pcmSample v = truncQ (v * 32767) := by
    rw [(pcmSample_spec v).1, hcl]
  have htr : |(truncQ (v * 32767) : ℚ) - v * 32767| < 1 := truncQ_sub_lt_one _
  have hv : |v| ≤ 1 := abs_le.mpr ⟨h1, h2⟩
  have key : |(truncQ (v * 32767) : ℚ) - 32768 * v| < 2 := by
    have e : (truncQ (v * 32767) : ℚ) - 32768 * v
        = ((truncQ (v * 32767) : ℚ) - v * 32767) + (-v) := by ring
    calc |(truncQ (v * 32767) : ℚ) - 32768 * v|
        = |((truncQ (v * 32767) : ℚ) - v * 32767) + (-v)| := by rw [e]
      _ ≤ |(truncQ (v * 32767) : ℚ) - v * 32767| + |-v| := abs_add _ _
      _ = |(truncQ (v * 32767) : ℚ) - v * 32767| + |v| := by rw [abs_neg]
      _ < 2 := by linarith
  have hrw : ((pcmSample v : ℤ) : ℚ) / 32768 - v
      = ((truncQ (v * 32767) : ℚ) - 32768 * v) / 32768 := by
    rw [heq]; ring
  rw [hrw, abs_div]
  have h32 : |(32768 : ℚ)| = 32768 := abs_of_pos (by norm_num)
  rw [h32]
  linarith

theorem createPcmBlob_eq (x : List ℚ) :
    createPcmBlob x = ((x.map pcmSample).map int16Bytes).flatten := by
  unfold createPcmBlob
  rw [List.map_map]
  rfl

theorem encodePcmAudio_eq (x : List ℚ) :
    encodePcmAudio x = ((x.map pcmSample2).map int16Bytes).flatten := by
  unfold encodePcmAudio
  rw [List.map_map]
  rfl

theorem flatten_int16Bytes_length (ns : List ℤ) :
    ((ns.map int16Bytes).flatten).length = 2 * ns.length := by
  induction ns with
  | nil => rfl
  | cons n rest ih =>
    simp only [List.map_cons, List.flatten_cons, List.length_append, int16Bytes,
      List.length_cons, List.length_nil]
    omega

theorem int16OfBytes_even : ∀ (l : List ℕ), 2 ∣ l.length →
    ∃ ns, int16OfBytes l = some ns ∧ ns.length = l.length / 2
  | [], _ => ⟨[], rfl, rfl⟩
  | [_], h => by simp only [List.length_singleton] at h; omega
  | b0 :: b1 :: rest, h => by
    have h' : 2 ∣ rest.length := by
      simp only [List.length_cons] at h
      omega
    obtain ⟨ns, hns, hlen⟩ := int16OfBytes_even rest h'
    refine ⟨bytePairVal b0 b1 :: ns, ?_, ?_⟩
    · simp [int16OfBytes, hns]
    · simp only [List.length_cons]
      omega

/-! ### C1 — codec round trip -/

/-- C1, counterexample: the spec claims the decoded value is within one
quantization step (1/32768) of the original for every input in `[-1, 1]`;
at the in-range input `0.9999` the encoder truncates `0.9999 * 32767` down
to the code 32763, and the decoded value `32763 / 32768` misses the
original by more than `1/32768`. -/
theorem c1_round_trip_counterexample :
    decodeAudioData (createPcmBlob [9999/10000]) 1 = some [[32763/32768]]
    ∧ (-1 : ℚ) ≤ 9999/10000 ∧ (9999/10000 : ℚ) ≤ 1
    ∧ ¬ (|32763/32768 - (9999/10000 : ℚ)| ≤ 1/32768) := by
  refine ⟨?_, by norm_num, by norm_num, ?_⟩
  · have h1 : createPcmBlob [9999/10000] = [251, 127] := by
      norm_num [createPcmBlob, int16Bytes, pcmSample, clampSample, truncQ, toInt16,
        min_def, max_def]
      decide
    rw [h1]
    norm_num [decodeAudioData, int16OfBytes, bytePairVal, List.range_succ]
  · rw [abs_sub_comm, abs_of_pos (by norm_num)]
    norm_num

/-- C1, amended: decoding the encoded chunk of a NON-EMPTY sample array
(one channel, equal rate; an empty chunk makes the decoder throw
`NotSupportedError` at `ctx.createBuffer` on zero frames) returns a
single channel of the same length whose samples differ from the
originals by strictly less than two quantization steps (`1/16384`, not the
claimed `1/32768`); out-of-range inputs are clamped before scaling, so the
sample `1.5` encodes to the maximum positive code 32767 under both
revisions of the encoder and never to a negative code. -/
theorem c1_round_trip_two_steps (x : List ℚ) (hne : x ≠ [])
    (h : ∀ v ∈ x, -1 ≤ v ∧ v ≤ 1) :
    decodeAudioData (createPcmBlob x) 1
      = some [x.map (fun v => ((pcmSample v : ℤ) : ℚ) / 32768)]
    ∧ (x.map (fun v => ((pcmSample v : ℤ) : ℚ) / 32768)).length = x.length
    ∧ (∀ v ∈ x, |((pcmSample v : ℤ) : ℚ) / 32768 - v| < 1 / 16384)
    ∧ pcmSample (3/2) = 32767 ∧ pcmSample2 (3/2) = 32767 := by
  refine ⟨decode_createPcmBlob x hne, List.length_map x _, ?_, ?_, ?_⟩
  · intro v hv
    exact pcm_error_bound v (h v hv).1 (h v hv).2
  · norm_num [pcmSample, clampSample, truncQ, toInt16, min_def, max_def]
  · norm_num [pcmSample2, clampSample, truncQ, toInt16, min_def, max_def]

/-- C1 witness: the amended round-trip theorem applied to the concrete
chunk `[1/2, -1]`. -/
theorem c1_round_trip_witness :
    (([1/2, -1] : List ℚ) ≠ [] ∧ ∀ v ∈ ([1/2, -1] : List ℚ), -1 ≤ v ∧ v ≤ 1)
    ∧ (∀ v ∈ ([1/2, -1] : List ℚ),
        |((pcmSample v : ℤ) : ℚ) / 32768 - v| < 1 / 16384) :=
  ⟨⟨by decide, by norm_num⟩,
    (c1_round_trip_two_steps [1/2, -1] (by decide) (by norm_num)).2.2.1⟩

/-! ### C2 — decoder totality on truncated payloads -/

/-- C2, counterexample: on the odd-length byte payload `[0]` both decoders
throw (`new Int16Array(buffer)` raises a `RangeError` when the byte length
is not a multiple of 2) instead of returning the claimed `floor(1/2) = 0`
frames; and on the empty payload — even length — both decoders also throw
(`ctx.createBuffer` raises `NotSupportedError` on zero frames) instead of
returning the claimed zero-frame buffer. -/
theorem c2_odd_length_counterexample :
    decodeAudioData [0] 1 = none
    ∧ decodePcmAudio [0] = none
    ∧ decodeAudioData [] 1 = none
    ∧ decodePcmAudio [] = none
    ∧ decodeAudioData [0] 1 ≠ some [[]]
    ∧ decodeAudioData [] 1 ≠ some [[]] := by
  refine ⟨rfl, rfl, rfl, rfl, ?_, ?_⟩ <;> simp [decodeAudioData, int16OfBytes]

/-- C2, amended: on every byte payload of even length holding at least
one whole frame per channel (`numChannels ≤ byteLength/2`) the playback
decoders return normally — `decodeAudioData` with `floor(bytes/2/channels)`
frames per channel and `decodePcmAudio` with `floor(bytes/2)` mono
frames. An odd (mid-frame truncated) payload raises a `RangeError`, and a
payload with zero frames (empty, or `byteLength/2 < numChannels`) raises
`NotSupportedError` at `createBuffer`. The capture encoders do return
normally on every input length including zero, producing `2 * n` bytes. -/
theorem c2_decoder_graceful_on_even (bytes : List ℕ) (nc : ℕ) (hnc : 0 < nc)
    (h2 : 2 ∣ bytes.length) (hframes : nc ≤ bytes.length / 2) :
    (∃ chans, decodeAudioData bytes nc = some chans ∧ chans.length = nc
      ∧ ∀ ch ∈ chans, ch.length = bytes.length / 2 / nc)
    ∧ (∃ samples, decodePcmAudio bytes = some samples
      ∧ samples.length = bytes.length / 2)
    ∧ (∀ x : List ℚ, (createPcmBlob x).length = 2 * x.length
      ∧ (encodePcmAudio x).length = 2 * x.length) := by
  obtain ⟨ns, hns, hlen⟩ := int16OfBytes_even bytes h2
  have hpos : 0 < ns.length / nc := by
    rw [hlen]
    exact Nat.div_pos hframes hnc
  refine ⟨⟨(List.range nc).map (fun c =>
      (List.range (ns.length / nc)).map (fun i =>
        (((ns.get? (i * nc + c)).getD 0 : ℤ) : ℚ) / 32768)), ?_, ?_, ?_⟩, ?_, ?_⟩
  · unfold decodeAudioData
    rw [hns, Option.some_bind, if_neg (by push_neg; omega)]
  · rw [List.length_map, List.length_range]
  · intro ch hch
    rcases List.mem_map.mp hch with ⟨c, _, rfl⟩
    rw [List.length_map, List.length_range, hlen]
  · refine ⟨ns.map (fun n => ((n : ℤ) : ℚ) / 32768), ?_, ?_⟩
    · unfold decodePcmAudio
      rw [hns, Option.some_bind, if_neg (by omega)]
    · rw [List.length_map, hlen]
  · intro x
    constructor
    · rw [createPcmBlob_eq, flatten_int16Bytes_length, List.length_map]
    · rw [encodePcmAudio_eq, flatten_int16Bytes_length, List.length_map]

/-- C2 witness: the graceful-decode theorem applied to the concrete
4-byte payload `[1, 2, 3, 4]` with one channel. -/
theorem c2_decoder_graceful_witness :
    (0 < 1 ∧ 2 ∣ ([1, 2, 3, 4] : List ℕ).length
      ∧ 1 ≤ ([1, 2, 3, 4] : List ℕ).length / 2)
    ∧ (∃ samples, decodePcmAudio [1, 2, 3, 4] = some samples
      ∧ samples.length = ([1, 2, 3, 4] : List ℕ).length / 2) :=
  ⟨⟨by decide, by decide, by decide⟩, (c2_decoder_graceful_on_even [1, 2, 3, 4] 1
    (by decide) (by decide) (by decide)).2.1⟩

/-! ### Playback scheduling (C3)

The audio branch of the message callback (both revisions): the cursor
`nextStartTimeRef` is first lifted to the playback-context current time
(`Math.max` in the first revision, an equivalent `if` in the second), the
fragment is decoded and scheduled to start at the lifted cursor, and the
cursor advances by the fragment duration (`audioBuffer.duration`, i.e.
frames over the fixed 24000 Hz output rate). A per-fragment decode error
is caught and drops only that fragment. -/

/-- One audio fragment as the message callback sees it: the playback
context current time at handling, and the byte length of its payload. -/
structure AudioFragment where
  now : ℚ
  byteLen : ℕ
  deriving DecidableEq, Repr

/-- `audioBuffer.duration`: mono frame count over the fixed 24 kHz rate. -/
def fragDuration (f : AudioFragment) : ℚ := ((f.byteLen / 2 : ℕ) : ℚ) / 24000

/-- Handling one fragment: lift the cursor to the context time, then — if
the payload decodes (even byte length) — schedule at the lifted cursor
and advance by the duration; a decode error leaves the lifted cursor and
schedules nothing. Returns the new cursor and the scheduled
(start, duration) pair, if any. -/
def scheduleFragment (cursor : ℚ) (f : AudioFragment) : ℚ × Option (ℚ × ℚ) :=
  if 2 ∣ f.byteLen then
    (max cursor f.now + fragDuration f, some (max cursor f.now, fragDuration f))
  else (max cursor f.now, none)

/-- The (start, duration) pairs scheduled for a stream of fragments. -/
def scheduleAll (cursor : ℚ) : List AudioFragment → List (ℚ × ℚ)
  | [] => []
  | f :: rest =>
    ((scheduleFragment cursor f).2).toList ++ scheduleAll (scheduleFragment cursor f).1 rest

theorem fragDuration_nonneg (f : AudioFragment) : 0 ≤ fragDuration f := by
  unfold fragDuration
  positivity

theorem scheduleAll_invariant (frags : List AudioFragment) : ∀ cursor : ℚ,
    (∀ p ∈ scheduleAll cursor frags, cursor ≤ p.1 ∧ 0 ≤ p.2)
    ∧ List.Chain' (fun a b : ℚ × ℚ => a.1 + a.2 ≤ b.1) (scheduleAll cursor frags)
    ∧ List.Chain' (fun a b : ℚ × ℚ => a.1 ≤ b.1) (scheduleAll cursor frags) := by
  induction frags with
  | nil =>
    intro cursor
    refine ⟨?_, ?_, ?_⟩ <;> simp [scheduleAll]
  | cons f rest ih =>
    intro cursor
    unfold scheduleAll scheduleFragment
    split
    · -- even payload: the fragment is scheduled
      obtain ⟨ihmem, ihchain, ihmono⟩ := ih (max cursor f.now + fragDuration f)
      have hd := fragDuration_nonneg f
      have hstep : ∀ b ∈ (scheduleAll (max cursor f.now + fragDuration f) rest).head?,
          max cursor f.now + fragDuration f ≤ b.1 := by
        intro b hb
        exact (ihmem b (List.mem_of_mem_head? hb)).1
      refine ⟨?_, ?_, ?_⟩
      · intro p hp
        rcases List.mem_cons.mp hp with h | h
        · subst h
          exact ⟨le_max_left _ _, hd⟩
        · have := ihmem p h
          constructor
          · calc cursor ≤ max cursor f.now := le_max_left _ _
              _ ≤ max cursor f.now + fragDuration f := le_add_of_nonneg_right hd
              _ ≤ p.1 := this.1
          · exact this.2
      · exact List.chain'_cons'.mpr ⟨hstep, ihchain⟩
      · refine List.chain'_cons'.mpr ⟨?_, ihmono⟩
        intro b hb
        calc max cursor f.now ≤ max cursor f.now + fragDuration f :=
            le_add_of_nonneg_right hd
          _ ≤ b.1 := hstep b hb
    · -- decode error: only the cursor lift survives
      obtain ⟨ihmem, ihchain, ihmono⟩ := ih (max cursor f.now)
      refine ⟨?_, by simpa using ihchain, by simpa using ihmono⟩
      intro p hp
      simp only [Option.toList_none, List.nil_append] at hp
      have := ihmem p hp
      exact ⟨le_trans (le_max_left _ _) this.1, this.2⟩

/-- C3: for every initial cursor and every fragment stream (arbitrary
arrival times and payload sizes), each fragment starts at
`max(currentTime, cursor)` and advances the cursor by its duration; the
scheduled start times are non-decreasing and each scheduled fragment
starts no earlier than the previous start plus the previous duration, so
no two scheduled fragments overlap. -/
theorem c3_monotonic_playback (cursor : ℚ) (frags : List AudioFragment) :
    List.Chain' (fun a b : ℚ × ℚ => a.1 + a.2 ≤ b.1) (scheduleAll cursor frags)
    ∧ List.Chain' (fun a b : ℚ × ℚ => a.1 ≤ b.1) (scheduleAll cursor frags)
    ∧ (∀ f : AudioFragment, 2 ∣ f.byteLen →
        scheduleFragment cursor f
          = (max cursor f.now + fragDuration f, some (max cursor f.now, fragDuration f))) := by
  obtain ⟨_, hchain, hmono⟩ := scheduleAll_invariant frags cursor
  refine ⟨hchain, hmono, ?_⟩
  intro f hf
  unfold scheduleFragment
  rw [if_pos hf]

/-- C3 witness: the scheduling theorem applied to the cursor 0 and a
concrete two-fragment stream. -/
theorem c3_monotonic_playback_witness :
    List.Chain' (fun a b : ℚ × ℚ => a.1 + a.2 ≤ b.1)
      (scheduleAll 0 [⟨5, 4⟩, ⟨2, 6⟩])
    ∧ scheduleFragment 0 ⟨5, 4⟩
      = (max 0 5 + fragDuration ⟨5, 4⟩, some (max 0 5, fragDuration ⟨5, 4⟩)) :=
  ⟨(c3_monotonic_playback 0 [⟨5, 4⟩, ⟨2, 6⟩]).1,
    (c3_monotonic_playback 0 [⟨5, 4⟩, ⟨2, 6⟩]).2.2 ⟨5, 4⟩ (by decide)⟩

/-! ### Tool-call message loop (C4, C5, C7, C10)

Embedding of the first-revision `onmessage` tool-call branch
(`VoiceAssistant.tsx`). For each call of the batch a `switch` on the tool
name runs inside a `try`; a thrown host-callback exception is caught and
turned into a failure result; the per-call response is pushed after the
`try`/`catch`; the `request_visual_context` branch executes `continue`
(no direct response) and instead fires the out-of-band
`sendVisualContext`, whose acknowledgement carries the synthetic id
`visual-context-sent-<Date.now()>` and is skipped entirely when the image
queue is empty. `close_assistant` runs `stopSession`, nulling the session
promise, so the final batched `sendToolResponse` (guarded on a non-empty
list and a live session ref) is skipped. Arguments are abstracted to the
two strings the loop interpolates into messages (`arg` for
`action`/`direction`, `arg2` for `value`/`targetIndex`); whether the host
callback invoked by a call throws is the input flag `fails` of the call,
with the thrown message `failMsg`. -/

structure ModalsState where
  composite : Bool
  ocr : Bool
  guide : Bool
  langMenu : Option Bool
  deriving DecidableEq, Repr

structure ToolCall where
  name : String
  id : String
  arg : String
  arg2 : String
  fails : Bool
  failMsg : String
  deriving DecidableEq, Repr

structure ToolResult where
  ok : Bool
  message : String
  deriving DecidableEq, Repr

structure ToolResponse where
  id : String
  name : String
  result : ToolResult
  deriving DecidableEq, Repr

structure LoopEnv where
  modals : ModalsState
  hasCompositeUpdate : Bool
  imagesLen : ℕ
  now : ℕ
  report : String
  docs : String
  deriving DecidableEq, Repr

/-- A branch body that invokes a host callback inside the `try`: when the
callback throws, the `catch` replaces the result with the failure
carrying the error message. -/
def hostTry (c : ToolCall) (r : ToolResult) : ToolResult :=
  if c.fails then ⟨false, c.failMsg⟩ else r

/-- The `read_documentation` result text (`docs` stands for the localized
help block assembled from the translation table). -/
def docMessage (env : LoopEnv) : String :=
  "Here is the documentation content. PLEASE READ THIS ALOUD TO THE USER NATURALLY:\n\n"
    ++ env.docs

/-- The result computed by the `switch` plus `catch` for one call — every
branch except `request_visual_context`, which pushes no response. -/
def callResult (env : LoopEnv) (c : ToolCall) : ToolResult :=
  if c.name = "get_system_state" then ⟨true, env.report⟩
  else if c.name = "scroll_viewport" then hostTry c ⟨true, "Scrolled " ++ c.arg⟩
  else if c.name = "update_native_input" then hostTry c ⟨true, "Native input updated."⟩
  else if c.name = "trigger_native_generation" then
    hostTry c ⟨true, "Generation started successfully."⟩
  else if c.name = "perform_item_action" then
    hostTry c ⟨true, "Action " ++ c.arg ++ " performed on item " ++ c.arg2 ++ "."⟩
  else if c.name = "apply_settings_globally" then hostTry c ⟨true, "Applied globally."⟩
  else if c.name = "start_processing_queue" then hostTry c ⟨true, "Queue started."⟩
  else if c.name = "analyze_images" then hostTry c ⟨true, "Audit running."⟩
  else if c.name = "manage_ui_state" then
    hostTry c ⟨true, "UI State updated: " ++ c.arg ++ " -> " ++ c.arg2⟩
  else if c.name = "manage_queue_actions" then hostTry c ⟨true, "Queue action executed."⟩
  else if c.name = "manage_composite_settings" then
    if env.hasCompositeUpdate then hostTry c ⟨true, "Composite settings updated."⟩
    else ⟨false, "Composite mode not active or handler missing."⟩
  else if c.name = "manage_composite_selection" then
    hostTry c ⟨true, "Selection updated: " ++ c.arg⟩
  else if c.name = "read_documentation" then
    if env.modals.guide then ⟨true, docMessage env⟩ else hostTry c ⟨true, docMessage env⟩
  else if c.name = "playback_control" then
    if c.arg = "PAUSE" then hostTry c ⟨true, "Paused."⟩
    else if c.arg = "RESUME" then hostTry c ⟨true, "Resumed."⟩
    else if c.arg = "STOP" then hostTry c ⟨true, "Stopped."⟩
    else ⟨false, "Invalid action."⟩
  else if c.name = "close_assistant" then ⟨true, "Assistant closed."⟩
  else ⟨false, "Unknown tool: " ++ c.name⟩

/-- The response pushed into `functionResponses` for one call: `none` for
`request_visual_context` (its branch executes `continue`), otherwise the
call id and name with the computed result. -/
def directPush (env : LoopEnv) (c : ToolCall) : Option ToolResponse :=
  if c.name = "request_visual_context" then none
  else some ⟨c.id, c.name, callResult env c⟩

/-- The out-of-band `sendVisualContext` acknowledgement: sent only when
the session ref is live and the image queue is non-empty, with a
synthetic id and the count of transmitted frames (at most 3). -/
def visualContextOob (env : LoopEnv) (live : Bool) : List ToolResponse :=
  if live && decide (0 < env.imagesLen) then
    [⟨"visual-context-sent-" ++ toString env.now, "request_visual_context",
      ⟨true, "Visual context sent for " ++ toString (min env.imagesLen 3) ++ " images."⟩⟩]
  else []

/-- Whether the branch for this call invokes its host callback, i.e.
whether the `fails` flag can fire at all. -/
def invokesHost (env : LoopEnv) (c : ToolCall) : Bool :=
  (c.name == "scroll_viewport") || (c.name == "update_native_input")
  || (c.name == "trigger_native_generation") || (c.name == "perform_item_action")
  || (c.name == "apply_settings_globally") || (c.name == "start_processing_queue")
  || (c.name == "analyze_images") || (c.name == "manage_ui_state")
  || (c.name == "manage_queue_actions") || (c.name == "manage_composite_selection")
  || ((c.name == "manage_composite_settings") && env.hasCompositeUpdate)
  || ((c.name == "read_documentation") && !env.modals.guide)
  || ((c.name == "playback_control")
      && (c.arg == "PAUSE" || c.arg == "RESUME" || c.arg == "STOP"))

/-- The host callback for this call actually throws. -/
def throwsIn (env : LoopEnv) (c : ToolCall) : Bool := c.fails && invokesHost env c

/-- Whether a call invokes the `onCompositeUpdate` host callback:
`manage_composite_settings` whenever the handler is provided — the
`modalsState.composite` flag is never consulted. -/
def invokesCompositeUpdate (env : LoopEnv) (c : ToolCall) : Bool :=
  (c.name == "manage_composite_settings") && env.hasCompositeUpdate

structure LoopState where
  live : Bool
  responses : List ToolResponse
  oob : List ToolResponse
  compositeUpdates : ℕ
  deriving DecidableEq, Repr

/-- The per-batch loop: processes the calls in array order, accumulating
pushed responses, out-of-band responses and `onCompositeUpdate`
invocations; `live` tracks `sessionPromiseRef.current`, nulled by the
`close_assistant` branch through `stopSession`. -/
def runCalls (env : LoopEnv) (live : Bool) : List ToolCall → LoopState
  | [] => ⟨live, [], [], 0⟩
  | c :: rest =>
    let oobHere := if c.name = "request_visual_context" then visualContextOob env live else []
    let live' := if c.name = "close_assistant" then false else live
    let st := runCalls env live' rest
    ⟨st.live,
      (directPush env c).toList ++ st.responses,
      oobHere ++ st.oob,
      (if invokesCompositeUpdate env c then 1 else 0) + st.compositeUpdates⟩

/-- Running the loop on a message that arrives while the session is live. -/
def runToolLoop (env : LoopEnv) (calls : List ToolCall) : LoopState :=
  runCalls env true calls

/-- The batched `sendToolResponse` at the end of the handler: sent only if
the accumulated list is non-empty and the session ref is still live. -/
def sentResponses (env : LoopEnv) (calls : List ToolCall) : List ToolResponse :=
  if (runToolLoop env calls).live && !(runToolLoop env calls).responses.isEmpty then
    (runToolLoop env calls).responses
  else []

/-- The names with a `switch` branch of their own in the loop. -/
def knownToolNames : List String :=
  ["get_system_state", "scroll_viewport", "update_native_input",
   "trigger_native_generation", "perform_item_action", "apply_settings_globally",
   "start_processing_queue", "analyze_images", "request_visual_context",
   "manage_ui_state", "manage_queue_actions", "manage_composite_settings",
   "manage_composite_selection", "read_documentation", "playback_control",
   "close_assistant"]

/-! ### Loop lemmas -/

theorem runCalls_live (env : LoopEnv) (live : Bool) (calls : List ToolCall)
    (h : ∀ c ∈ calls, c.name ≠ "close_assistant") :
    (runCalls env live calls).live = live := by
  induction calls with
  | nil => rfl
  | cons c rest ih =>
    have hc := h c (List.mem_cons_self c rest)
    have hrest : ∀ d ∈ rest, d.name ≠ "close_assistant" :=
      fun d hd => h d (List.mem_cons_of_mem c hd)
    simp only [runCalls, if_neg hc]
    exact ih hrest

theorem runCalls_responses (env : LoopEnv) (live : Bool) (calls : List ToolCall) :
    (runCalls env live calls).responses = calls.filterMap (directPush env) := by
  induction calls generalizing live with
  | nil => rfl
  | cons c rest ih =>
    cases h : directPush env c <;>
      simp [runCalls, List.filterMap_cons, h, ih]

theorem filterMap_noRvc (env : LoopEnv) (calls : List ToolCall)
    (h : ∀ c ∈ calls, c.name ≠ "request_visual_context") :
    calls.filterMap (directPush env)
      = calls.map (fun c => ⟨c.id, c.name, callResult env c⟩) := by
  induction calls with
  | nil => rfl
  | cons c rest ih =>
    have hc := h c (List.mem_cons_self c rest)
    have hrest : ∀ d ∈ rest, d.name ≠ "request_visual_context" :=
      fun d hd => h d (List.mem_cons_of_mem c hd)
    simp only [List.filterMap_cons, directPush, if_neg hc, List.map_cons]
    rw [ih hrest]

theorem filterMap_ids_subset (env : LoopEnv) (calls : List ToolCall)
    (r : ToolResponse) (hr : r ∈ calls.filterMap (directPush env)) :
    r.id ∈ calls.map ToolCall.id := by
  induction calls with
  | nil => cases hr
  | cons c rest ih =>
    rw [List.filterMap_cons] at hr
    cases h : directPush env c with
    | none =>
      rw [h] at hr
      exact List.mem_cons_of_mem _ (ih hr)
    | some ra =>
      rw [h] at hr
      have hid : ra.id = c.id := by
        unfold directPush at h
        split at h
        · cases h
        · cases h; rfl
      rcases List.mem_cons.mp hr with h1 | h1
      · subst h1
        rw [List.map_cons, hid]
        exact List.mem_cons_self _ _
      · exact List.mem_cons_of_mem _ (ih h1)

theorem callResult_unknown (env : LoopEnv) (c : ToolCall)
    (h : c.name ∉ knownToolNames) :
    callResult env c = ⟨false, "Unknown tool: " ++ c.name⟩ := by
  simp only [knownToolNames, List.mem_cons, List.not_mem_nil, or_false, not_or] at h
  obtain ⟨h1, h2, h3, h4, h5, h6, h7, h8, h9, h10, h11, h12, h13, h14, h15, h16⟩ := h
  simp [callResult, h1, h2, h3, h4, h5, h6, h7, h8, h9, h10, h11, h12, h13, h14, h15, h16]

theorem callResult_throws (env : LoopEnv) (c : ToolCall)
    (h : throwsIn env c = true) :
    callResult env c = ⟨false, c.failMsg⟩ := by
  simp only [throwsIn, invokesHost, Bool.and_eq_true, Bool.or_eq_true, beq_iff_eq] at h
  obtain ⟨hf, hn⟩ := h
  rcases hn with ((((((((((((hn | hn) | hn) | hn) | hn) | hn) | hn) | hn) | hn) | hn)
    | ⟨hn, hcu⟩) | ⟨hn, hg⟩) | ⟨hn, (ha | ha) | ha⟩)
  all_goals simp_all [callResult, hostTry, docMessage]

/-! ### C4 — tool-response completeness -/

/-- Concrete environment for the C4 counterexample: one queued image,
`Date.now() = 0`. -/
def envC4 : LoopEnv := ⟨⟨false, false, false, some false⟩, true, 1, 0, "", ""⟩

/-- C4, counterexample: a batch holding the single call
`request_visual_context` with id `call-1` (no `close_assistant` in the
batch, `N = 1`). The loop pushes no response for it (`continue`), so the
batched send carries 0 responses instead of the claimed exactly 1, and
the only out-of-band acknowledgement carries the synthetic id
`visual-context-sent-0`, not the original id. -/
theorem c4_completeness_counterexample :
    sentResponses envC4 [⟨"request_visual_context", "call-1", "", "", false, ""⟩] = []
    ∧ (runToolLoop envC4 [⟨"request_visual_context", "call-1", "", "", false, ""⟩]).oob
      = [⟨"visual-context-sent-0", "request_visual_context",
          ⟨true, "Visual context sent for 1 images."⟩⟩]
    ∧ "visual-context-sent-0" ≠ "call-1" := by decide

/-- C4, amended: for every batch of `N ≥ 1` calls none of which is
`close_assistant` or `request_visual_context`, the engine sends exactly
`N` tool responses, in order, each carrying the id of the call it
answers. (A `request_visual_context` call is excluded: it is acknowledged
out of band under a synthetic id, and not at all when the image queue is
empty.) -/
theorem c4_tool_response_completeness (env : LoopEnv) (calls : List ToolCall)
    (h0 : calls ≠ [])
    (h : ∀ c ∈ calls, c.name ≠ "close_assistant" ∧ c.name ≠ "request_visual_context") :
    (sentResponses env calls).length = calls.length
    ∧ (sentResponses env calls).map ToolResponse.id = calls.map ToolCall.id := by
  have hlive : (runToolLoop env calls).live = true :=
    runCalls_live env true calls (fun c hc => (h c hc).1)
  have hresp : (runToolLoop env calls).responses
      = calls.map (fun c => ⟨c.id, c.name, callResult env c⟩) := by
    rw [runToolLoop, runCalls_responses, filterMap_noRvc env calls (fun c hc => (h c hc).2)]
  have hne : (runToolLoop env calls).responses.isEmpty = false := by
    rw [hresp]
    cases calls with
    | nil => exact absurd rfl h0
    | cons a l => rfl
  have hsent : sentResponses env calls = (runToolLoop env calls).responses := by
    unfold sentResponses
    rw [hlive, hne]
    rfl
  rw [hsent, hresp]
  constructor
  · rw [List.length_map]
  · rw [List.map_map]
    rfl

/-- C4 witness: the completeness theorem applied to a concrete two-call
batch. -/
theorem c4_completeness_witness :
    (sentResponses envC4 [⟨"scroll_viewport", "a1", "DOWN", "", false, ""⟩,
      ⟨"analyze_images", "a2", "", "", false, ""⟩]).map ToolResponse.id
      = ["a1", "a2"] :=
  (c4_tool_response_completeness envC4
    [⟨"scroll_viewport", "a1", "DOWN", "", false, ""⟩,
     ⟨"analyze_images", "a2", "", "", false, ""⟩]
    (by decide) (by decide)).2

/-! ### C5 — per-call error containment -/

/-- Concrete environment for the C5 counterexample: empty image queue. -/
def envC5 : LoopEnv := ⟨⟨false, false, false, some false⟩, true, 0, 0, "", ""⟩

/-- C5, counterexample: in the batch
`[start_processing_queue (handler throws), request_visual_context]` with
an empty image queue, the thrown exception is indeed caught and converted
into the failure response for `id-1` — but the sibling call `id-2`
produces no tool response at all (its branch executes `continue` and
`sendVisualContext` returns early on an empty queue), refuting that every
other call in the batch still produces its own response. -/
theorem c5_containment_counterexample :
    sentResponses envC5 [⟨"start_processing_queue", "id-1", "", "", true, "boom"⟩,
      ⟨"request_visual_context", "id-2", "", "", false, ""⟩]
      = [⟨"id-1", "start_processing_queue", ⟨false, "boom"⟩⟩]
    ∧ (runToolLoop envC5 [⟨"start_processing_queue", "id-1", "", "", true, "boom"⟩,
        ⟨"request_visual_context", "id-2", "", "", false, ""⟩]).oob = [] := by decide

theorem throwsIn_ne_rvc (env : LoopEnv) (c : ToolCall)
    (h : throwsIn env c = true) : c.name ≠ "request_visual_context" := by
  intro hx
  simp [throwsIn, invokesHost, hx] at h

theorem length_filterMap_directPush (env : LoopEnv) (calls : List ToolCall) :
    (calls.filterMap (directPush env)).length
      = (calls.filter (fun d => !(d.name == "request_visual_context"))).length := by
  induction calls with
  | nil => rfl
  | cons a rest ih =>
    by_cases ha : a.name = "request_visual_context" <;>
      simp [List.filterMap_cons, List.filter_cons, directPush, ha, ih]

/-- C5, amended: for EVERY batch — including one containing
`request_visual_context` calls — when the host callback of the call at
position `i` throws, the exception is caught within that iteration and
converted into the failure response carrying the thrown message for that
call; it does not escape the handler: the loop still produces exactly one
response per call other than the `request_visual_context` calls (which
never receive a per-call response, exception or not), each carrying its
own id, name and computed result. -/
theorem c5_error_containment (env : LoopEnv) (calls : List ToolCall)
    (i : ℕ) (c : ToolCall) (hc : calls.get? i = some c)
    (hthrow : throwsIn env c = true) :
    (⟨c.id, c.name, ⟨false, c.failMsg⟩⟩ : ToolResponse) ∈ (runToolLoop env calls).responses
    ∧ (∀ d ∈ calls, d.name ≠ "request_visual_context" →
        (⟨d.id, d.name, callResult env d⟩ : ToolResponse) ∈ (runToolLoop env calls).responses)
    ∧ (runToolLoop env calls).responses.length
      = (calls.filter (fun d => !(d.name == "request_visual_context"))).length := by
  have hresp : (runToolLoop env calls).responses = calls.filterMap (directPush env) :=
    runCalls_responses env true calls
  have hmemc : c ∈ calls := List.get?_mem hc
  have hcname : c.name ≠ "request_visual_context" := throwsIn_ne_rvc env c hthrow
  refine ⟨?_, ?_, ?_⟩
  · rw [hresp]
    refine List.mem_filterMap.mpr ⟨c, hmemc, ?_⟩
    simp only [directPush, if_neg hcname]
    rw [callResult_throws env c hthrow]
  · intro d hd hdname
    rw [hresp]
    exact List.mem_filterMap.mpr ⟨d, hd, by simp only [directPush, if_neg hdname]⟩
  · rw [hresp]
    exact length_filterMap_directPush env calls

/-- C5 witness: the containment theorem applied to a concrete three-call
batch whose first handler throws and whose second call is
`request_visual_context`. -/
theorem c5_error_containment_witness :
    (⟨"w1", "manage_ui_state", ⟨false, "host crashed"⟩⟩ : ToolResponse)
      ∈ (runToolLoop envC5
        [⟨"manage_ui_state", "w1", "OPEN_OCR", "", true, "host crashed"⟩,
         ⟨"request_visual_context", "w2", "", "", false, ""⟩,
         ⟨"get_system_state", "w3", "", "", false, ""⟩]).responses :=
  (c5_error_containment envC5
    [⟨"manage_ui_state", "w1", "OPEN_OCR", "", true, "host crashed"⟩,
     ⟨"request_visual_context", "w2", "", "", false, ""⟩,
     ⟨"get_system_state", "w3", "", "", false, ""⟩]
    0 ⟨"manage_ui_state", "w1", "OPEN_OCR", "", true, "host crashed"⟩
    (by decide) (by decide)).1

/-! ### C7 — manage_composite_settings gating -/

/-- Concrete environment for the C7 counterexample: the composite modal
is closed but the `onCompositeUpdate` handler is provided. -/
def envC7 : LoopEnv := ⟨⟨false, false, false, some false⟩, true, 0, 0, "", ""⟩

/-- C7, counterexample: with the composite modal closed
(`modalsState.composite = false`) but the handler provided, a
`manage_composite_settings` call succeeds (`ok = true`) and
`onCompositeUpdate` is invoked once — the branch only tests whether the
handler exists, never the modal flag. -/
theorem c7_composite_gating_counterexample :
    envC7.modals.composite = false
    ∧ (runToolLoop envC7 [⟨"manage_composite_settings", "mc-1", "", "", false, ""⟩]).responses
      = [⟨"mc-1", "manage_composite_settings", ⟨true, "Composite settings updated."⟩⟩]
    ∧ (runToolLoop envC7 [⟨"manage_composite_settings", "mc-1", "", "", false, ""⟩]).compositeUpdates
      = 1 := by decide

/-- C7, amended: the failure response (`ok = false` with the not-active
message) and the skipped `onCompositeUpdate` happen exactly when the
`onCompositeUpdate` handler is absent, regardless of the composite modal
flag; with the handler provided the call succeeds and the callback is
invoked even while the modal is closed. -/
theorem c7_composite_gated_on_handler (env : LoopEnv) (c : ToolCall)
    (hname : c.name = "manage_composite_settings") (hfail : c.fails = false) :
    (env.hasCompositeUpdate = false →
      (runToolLoop env [c]).responses
        = [⟨c.id, c.name, ⟨false, "Composite mode not active or handler missing."⟩⟩]
      ∧ (runToolLoop env [c]).compositeUpdates = 0)
    ∧ (env.hasCompositeUpdate = true →
      (runToolLoop env [c]).responses
        = [⟨c.id, c.name, ⟨true, "Composite settings updated."⟩⟩]
      ∧ (runToolLoop env [c]).compositeUpdates = 1) := by
  constructor <;> intro h <;>
    simp [runToolLoop, runCalls, directPush, callResult, hostTry,
      invokesCompositeUpdate, hname, hfail, h]

/-- C7 witness: the gating theorem applied to an environment without the
handler. -/
theorem c7_composite_gating_witness :
    (runToolLoop ⟨⟨true, false, false, some false⟩, false, 0, 0, "", ""⟩
      [⟨"manage_composite_settings", "mc-2", "", "", false, ""⟩]).responses
      = [⟨"mc-2", "manage_composite_settings",
          ⟨false, "Composite mode not active or handler missing."⟩⟩]
    ∧ (runToolLoop ⟨⟨true, false, false, some false⟩, false, 0, 0, "", ""⟩
        [⟨"manage_composite_settings", "mc-2", "", "", false, ""⟩]).compositeUpdates = 0 :=
  (c7_composite_gated_on_handler ⟨⟨true, false, false, some false⟩, false, 0, 0, "", ""⟩
    ⟨"manage_composite_settings", "mc-2", "", "", false, ""⟩ (by decide) (by decide)).1 rfl

/-! ### C10 — unknown tool names -/

theorem filter_id_nil (env : LoopEnv) (calls : List ToolCall) (x : String)
    (h : ∀ d ∈ calls, d.id ≠ x) :
    (calls.filterMap (directPush env)).filter (fun r => r.id == x) = [] := by
  rw [List.filter_eq_nil]
  intro r hr
  have hid := filterMap_ids_subset env calls r hr
  rcases List.mem_map.mp hid with ⟨d, hd, hdx⟩
  simp only [beq_iff_eq]
  rw [← hdx]
  exact h d hd

/-- C10: a tool call whose name matches no branch of the `switch` falls
to the `default` case and still yields exactly one response — carrying
the original id and the failure payload `Unknown tool: <name>` — rather
than being dropped silently (batch ids assumed pairwise distinct). -/
theorem c10_unknown_tool_response (env : LoopEnv) (calls : List ToolCall)
    (c : ToolCall) (hmem : c ∈ calls)
    (hnodup : (calls.map ToolCall.id).Nodup)
    (hunk : c.name ∉ knownToolNames) :
    (runToolLoop env calls).responses.filter (fun r => r.id == c.id)
      = [⟨c.id, c.name, ⟨false, "Unknown tool: " ++ c.name⟩⟩] := by
  rw [runToolLoop, runCalls_responses]
  induction calls with
  | nil => cases hmem
  | cons a rest ih =>
    rw [List.map_cons, List.nodup_cons] at hnodup
    rcases List.mem_cons.mp hmem with heq | hmem'
    · subst heq
      have hrvc : c.name ≠ "request_visual_context" := by
        intro hx
        exact hunk (by rw [hx]; decide)
      have hrest : ∀ d ∈ rest, d.id ≠ c.id := fun d hd hdx =>
        hnodup.1 (hdx ▸ List.mem_map_of_mem ToolCall.id hd)
      rw [List.filterMap_cons]
      simp only [directPush, if_neg hrvc]
      rw [List.filter_cons, callResult_unknown env c hunk,
        filter_id_nil env rest c.id hrest]
      simp
    · rw [List.filterMap_cons]
      cases ha : directPush env a with
      | none => exact ih hmem' hnodup.2
      | some ra =>
        have hra : ra.id = a.id := by
          unfold directPush at ha
          split at ha
          · cases ha
          · cases ha; rfl
        have hne : (ra.id == c.id) = false := by
          simp only [beq_eq_false_iff_ne, ne_eq, hra]
          intro hx
          exact hnodup.1 (hx ▸ List.mem_map_of_mem ToolCall.id hmem')
        rw [List.filter_cons, hne]
        simp only [Bool.false_eq_true, if_false]
        exact ih hmem' hnodup.2

/-- C10 witness: the unknown-tool theorem applied to a batch holding the
unknown name `frobnicate_tool`. -/
theorem c10_unknown_tool_witness :
    (runToolLoop ⟨⟨false, false, false, some false⟩, true, 1, 0, "", ""⟩
      [⟨"frobnicate_tool", "u-1", "", "", false, ""⟩]).responses.filter
      (fun r => r.id == ToolCall.id ⟨"frobnicate_tool", "u-1", "", "", false, ""⟩)
      = [⟨"u-1", "frobnicate_tool", ⟨false, "Unknown tool: " ++ "frobnicate_tool"⟩⟩] :=
  c10_unknown_tool_response ⟨⟨false, false, false, some false⟩, true, 1, 0, "", ""⟩
    [⟨"frobnicate_tool", "u-1", "", "", false, ""⟩]
    ⟨"frobnicate_tool", "u-1", "", "", false, ""⟩
    (by decide) (by decide) (by decide)

/-! ### C6 — idempotent teardown

`stopSession` (first revision): drops the session promise ref, then for
each audio node — processor, media-stream source — disconnects and nulls
it (the null-guards only skip the external `disconnect` call; the ref is
null afterwards either way), stops all media tracks and drops the stream,
stops every tracked playback source (each `stop()` wrapped in
`try`/ignore, so a source that never started cannot raise), clears the
tracked set, closes and nulls both audio contexts (close failures
swallowed by `.catch`), resets the scheduling cursor to 0 and resets the
volume/active/connecting/executing status flags. The record below tracks
exactly the refs and state the function mutates; handles are `Option`
values with `none` standing for `null`. -/

structure EngineState where
  session : Option ℕ
  processor : Option ℕ
  source : Option ℕ
  stream : Option ℕ
  audioContext : Option ℕ
  inputAudioContext : Option ℕ
  sources : List ℕ
  nextStartTime : ℚ
  volume : ℚ
  isActive : Bool
  isConnecting : Bool
  isExecuting : Bool
  deriving DecidableEq, Repr

def stopSession (_s : EngineState) : EngineState :=
  { session := none, processor := none, source := none, stream := none,
    audioContext := none, inputAudioContext := none, sources := [],
    nextStartTime := 0, volume := 0,
    isActive := false, isConnecting := false, isExecuting := false }

/-- C6: teardown is total (modelled as a total function — every external
call that could raise is guarded or has its rejection swallowed in the
source) and idempotent: from any state, including an already-idle one,
one call nulls the session ref, both node refs, the stream and both
audio-context handles, empties the tracked source set, zeroes the cursor
and resets the volume/active/connecting/executing flags; a second call
changes nothing. -/
theorem c6_stop_session_idempotent (s : EngineState) :
    (stopSession s).session = none
    ∧ (stopSession s).processor = none
    ∧ (stopSession s).source = none
    ∧ (stopSession s).stream = none
    ∧ (stopSession s).audioContext = none
    ∧ (stopSession s).inputAudioContext = none
    ∧ (stopSession s).sources = []
    ∧ (stopSession s).nextStartTime = 0
    ∧ (stopSession s).volume = 0
    ∧ (stopSession s).isActive = false
    ∧ (stopSession s).isConnecting = false
    ∧ (stopSession s).isExecuting = false
    ∧ stopSession (stopSession s) = stopSession s :=
  ⟨rfl, rfl, rfl, rfl, rfl, rfl, rfl, rfl, rfl, rfl, rfl, rfl, rfl⟩

/-! ### C8 — state report

`generateStateReport` of the component revision cited by the claim
(`VoiceAssistant.tsx`, first revision): a template literal over
`currentLanguage`, `nativePrompt` (the `|| ''` default equals the prompt
itself for every string), the four modal flags (`langMenu ?? false`) and
`images.length`. The props `batchCompleteTrigger` and
`isNativeGenerating` are in scope but not interpolated. -/

structure ReportEnv where
  currentLanguage : String
  nativePrompt : String
  modals : ModalsState
  imagesLen : ℕ
  batchCompleteTrigger : ℕ
  isNativeGenerating : Bool
  deriving DecidableEq, Repr

/-- JavaScript template rendering of a boolean. -/
def boolStr (b : Bool) : String := if b then "true" else "false"

def generateStateReport (e : ReportEnv) : String :=
  "\n[SYSTEM STATE SNAPSHOT]\n- Current Interface Language: " ++ e.currentLanguage
    ++ "\n- Native Gen Input: \"" ++ e.nativePrompt
    ++ "\"\n- Modals Open:\n    Composite=" ++ boolStr e.modals.composite
    ++ "\n    OCR=" ++ boolStr e.modals.ocr
    ++ "\n    Docs=" ++ boolStr e.modals.guide
    ++ "\n    LangMenu=" ++ boolStr (e.modals.langMenu.getD false)
    ++ "\n- Images in Queue: " ++ toString e.imagesLen ++ "\n"

/-- C8, counterexample: two environments identical except for the
batch-completion counter (3 versus 4) and the generation-in-progress flag
produce the same report string — the report does not combine those
inputs (nor any scroll position or viewport counts, which the component
revision has no access to). -/
theorem c8_report_counterexample :
    generateStateReport ⟨"en", "p", ⟨false, false, false, some false⟩, 2, 3, false⟩
      = generateStateReport ⟨"en", "p", ⟨false, false, false, some false⟩, 2, 4, true⟩
    ∧ (3 : ℕ) ≠ 4
    ∧ false ≠ true :=
  ⟨rfl, by decide, by decide⟩

/-- C8, amended: `generateStateReport` is a deterministic synchronous
function of exactly the active language, the (untruncated) native-input
text, the four modal flags, and the image-queue length: two environments
agreeing on those four inputs yield identical strings (even when the
batch counter and generation flag differ), and the output text embeds
each of the four. -/
theorem c8_report_deterministic (e1 e2 : ReportEnv)
    (hl : e1.currentLanguage = e2.currentLanguage)
    (hp : e1.nativePrompt = e2.nativePrompt)
    (hm : e1.modals = e2.modals)
    (hi : e1.imagesLen = e2.imagesLen) :
    generateStateReport e1 = generateStateReport e2
    ∧ (∃ a b : String, generateStateReport e1 = a ++ e1.currentLanguage ++ b)
    ∧ (∃ a b : String, generateStateReport e1 = a ++ e1.nativePrompt ++ b)
    ∧ (∃ a b : String, generateStateReport e1 = a ++ boolStr e1.modals.composite ++ b)
    ∧ (∃ a b : String, generateStateReport e1 = a ++ toString e1.imagesLen ++ b) := by
  refine ⟨by rw [generateStateReport, generateStateReport, hl, hp, hm, hi], ?_, ?_, ?_, ?_⟩
  · exact ⟨"\n[SYSTEM STATE SNAPSHOT]\n- Current Interface Language: ",
      "\n- Native Gen Input: \"" ++ e1.nativePrompt
        ++ "\"\n- Modals Open:\n    Composite=" ++ boolStr e1.modals.composite
        ++ "\n    OCR=" ++ boolStr e1.modals.ocr
        ++ "\n    Docs=" ++ boolStr e1.modals.guide
        ++ "\n    LangMenu=" ++ boolStr (e1.modals.langMenu.getD false)
        ++ "\n- Images in Queue: " ++ toString e1.imagesLen ++ "\n",
      by simp [generateStateReport, String.append_assoc]⟩
  · exact ⟨"\n[SYSTEM STATE SNAPSHOT]\n- Current Interface Language: "
        ++ e1.currentLanguage ++ "\n- Native Gen Input: \"",
      "\"\n- Modals Open:\n    Composite=" ++ boolStr e1.modals.composite
        ++ "\n    OCR=" ++ boolStr e1.modals.ocr
        ++ "\n    Docs=" ++ boolStr e1.modals.guide
        ++ "\n    LangMenu=" ++ boolStr (e1.modals.langMenu.getD false)
        ++ "\n- Images in Queue: " ++ toString e1.imagesLen ++ "\n",
      by simp [generateStateReport, String.append_assoc]⟩
  · exact ⟨"\n[SYSTEM STATE SNAPSHOT]\n- Current Interface Language: "
        ++ e1.currentLanguage ++ "\n- Native Gen Input: \"" ++ e1.nativePrompt
        ++ "\"\n- Modals Open:\n    Composite=",
      "\n    OCR=" ++ boolStr e1.modals.ocr
        ++ "\n    Docs=" ++ boolStr e1.modals.guide
        ++ "\n    LangMenu=" ++ boolStr (e1.modals.langMenu.getD false)
        ++ "\n- Images in Queue: " ++ toString e1.imagesLen ++ "\n",
      by simp [generateStateReport, String.append_assoc]⟩
  · exact ⟨"\n[SYSTEM STATE SNAPSHOT]\n- Current Interface Language: "
        ++ e1.currentLanguage ++ "\n- Native Gen Input: \"" ++ e1.nativePrompt
        ++ "\"\n- Modals Open:\n    Composite=" ++ boolStr e1.modals.composite
        ++ "\n    OCR=" ++ boolStr e1.modals.ocr
        ++ "\n    Docs=" ++ boolStr e1.modals.guide
        ++ "\n    LangMenu=" ++ boolStr (e1.modals.langMenu.getD false)
        ++ "\n- Images in Queue: ",
      "\n",
      by simp [generateStateReport, String.append_assoc]⟩

/-- C8 witness: the determinism theorem applied to two concrete
environments that differ only in the batch counter and the generation
flag. -/
theorem c8_report_deterministic_witness :
    generateStateReport ⟨"hu", "banana", ⟨true, false, false, none⟩, 5, 7, true⟩
      = generateStateReport ⟨"hu", "banana", ⟨true, false, false, none⟩, 5, 8, false⟩ :=
  (c8_report_deterministic
    ⟨"hu", "banana", ⟨true, false, false, none⟩, 5, 7, true⟩
    ⟨"hu", "banana", ⟨true, false, false, none⟩, 5, 8, false⟩
    rfl rfl rfl rfl).1

/-! ### C9 — microphone acquisition fallback

The second-revision `startSession`: `getUserMedia` is first called with
the enhanced constraints (echo cancellation, noise suppression, auto gain
control, one channel); the surrounding `try`/`catch` retries exactly once
with the bare `{ audio: true }` request; a failure of the bare request
escapes to the outer catch, which sets the terminal `hasError` state.
`true` stands for the enhanced constraint set, `false` for the bare one;
the two booleans say whether each request would be granted. -/

inductive MicOutcome where
  | granted (enhanced : Bool)
  | failed
  deriving DecidableEq, Repr

/-- Returns the `getUserMedia` constraint requests issued, in order, and
the outcome of the acquisition phase. -/
def acquireMicrophone (enhancedOk basicOk : Bool) : List Bool × MicOutcome :=
  if enhancedOk then ([true], .granted true)
  else if basicOk then ([true, false], .granted false)
  else ([true, false], .failed)

/-- Whether the connecting phase ends in the user-visible error state
because of microphone acquisition (outer catch sets `hasError`). -/
def micPhaseHasError (enhancedOk basicOk : Bool) : Bool :=
  match (acquireMicrophone enhancedOk basicOk).2 with
  | .granted _ => false
  | .failed => true

/-- C9: the enhanced request is always issued first; the bare retry is
issued exactly when the enhanced request fails; the start sequence
reaches the terminal error state exactly when both requests fail, so a
failure of the enhanced request alone never aborts the
connecting-to-active transition. -/
theorem c9_microphone_fallback : ∀ enhancedOk basicOk : Bool,
    ((acquireMicrophone enhancedOk basicOk).1
      = if enhancedOk then [true] else [true, false])
    ∧ micPhaseHasError enhancedOk basicOk = (!enhancedOk && !basicOk)
    ∧ ((acquireMicrophone enhancedOk basicOk).2 = .failed
      ↔ enhancedOk = false ∧ basicOk = false) := by decide

end VoiceEngine
